import Mathlib

/-!
Shallow embedding of the order micro-service domain entities
(`src/entities/order.py`, `src/entities/product.py`,
`src/entities/ingredient.py` and the value objects `money.py`,
`order_status.py`, `sku.py`), together with theorems settling the
specification claims about them.

Python strings are modelled as `List Char`, Python `int` as `Nat`/`Int`
(ids are non-negative), `decimal.Decimal` amounts as `Rat` (Python
`Decimal` equality is numeric equality), Python `None`-able values as
`Option`, and raised `ValueError`s as `Except String` results.
-/

set_option autoImplicit false

namespace TcMicroService

/-! ## Value object: OrderStatus (`order_status.py`) -/

/-- Enumeration `OrderStatusType` from `order_status.py`. -/
inductive OrderStatusType where
  | RECEBIDO
  | EM_PREPARACAO
  | PRONTO
  | FINALIZADO
  | CANCELADO
deriving DecidableEq, Repr

/-- Value object `OrderStatus`: a frozen wrapper around a status value.
The `__post_init__` validation (`status in OrderStatusType`) always
succeeds for enum members, so construction is total here. -/
structure OrderStatus where
  status : OrderStatusType
deriving DecidableEq, Repr

/-- Python list indexing `l[i]` for a possibly negative index `i`:
a negative index counts from the end of the list; an out-of-range
index raises `IndexError`, modelled as `none`. -/
def pyGet {α : Type} (l : List α) (i : Int) : Option α :=
  if 0 ≤ i then l.get? i.toNat
  else if (-i).toNat ≤ l.length then l.get? (l.length - (-i).toNat)
  else none

/-- Status flow list used by `next_status` and `previous_status`. -/
def statusFlow : List OrderStatusType :=
  [OrderStatusType.RECEBIDO, OrderStatusType.EM_PREPARACAO,
   OrderStatusType.PRONTO, OrderStatusType.FINALIZADO]

/-- Method `OrderStatus.next_status`: `flow.index` raising `ValueError`
(status not in the flow) and `flow[current_index + 1]` raising
`IndexError` both yield `None`. -/
def OrderStatus.next_status (s : OrderStatus) : Option OrderStatus :=
  match statusFlow.findIdx? (fun t => t == s.status) with
  | none => none
  | some i => (pyGet statusFlow ((i : Int) + 1)).map OrderStatus.mk

/-- Method `OrderStatus.previous_status`: `flow[current_index - 1]`,
where Python indexing makes `flow[-1]` the last element of the flow. -/
def OrderStatus.previous_status (s : OrderStatus) : Option OrderStatus :=
  match statusFlow.findIdx? (fun t => t == s.status) with
  | none => none
  | some i => (pyGet statusFlow ((i : Int) - 1)).map OrderStatus.mk

/-- C3: the claim says `previous_status()` is a no-op at RECEBIDO, and the
code's own comment agrees, but `flow[0 - 1]` is Python's `flow[-1]`, the
last element of the flow: at RECEBIDO the code returns FINALIZADO. -/
theorem previous_status_recebido_wraps :
    OrderStatus.previous_status ⟨OrderStatusType.RECEBIDO⟩
      = some ⟨OrderStatusType.FINALIZADO⟩ := by decide

/-- C4: whenever `previous_status s` and `next_status (previous_status s)`
are both defined, stepping back and then forward returns to `s`. -/
theorem next_of_previous_status (s t u : OrderStatus)
    (hp : s.previous_status = some t) (hn : t.next_status = some u) :
    u = s := by
  obtain ⟨a⟩ := s
  obtain ⟨b⟩ := t
  obtain ⟨c⟩ := u
  revert hp hn
  cases a <;> cases b <;> cases c <;> decide

/-- C4 witness: at EM_PREPARACAO the round trip is realised concretely. -/
theorem next_of_previous_status_witness :
    (⟨OrderStatusType.EM_PREPARACAO⟩ : OrderStatus)
      = ⟨OrderStatusType.EM_PREPARACAO⟩ :=
  next_of_previous_status ⟨OrderStatusType.EM_PREPARACAO⟩
    ⟨OrderStatusType.RECEBIDO⟩ ⟨OrderStatusType.EM_PREPARACAO⟩
    (by decide) (by decide)

/-! ## Value object: Money (`money.py`) -/

/-- Value object `Money`: a `Decimal` amount, modelled as `Rat` (Python
`Decimal` equality is numeric equality, so dataclass equality of two
`Money` objects is equality of the rational amounts). -/
structure Money where
  amount : Rat
deriving DecidableEq, Repr

/-- Static method `Money._is_valid_amount`: the amount must be
non-negative and have at most 2 decimal places (equivalently,
`amount * 100` is an integer). -/
def Money.is_valid_amount (amount : Rat) : Bool :=
  if amount < 0 then false
  else if (amount * 100).den ≠ 1 then false
  else true

/-- Construction `Money(amount=a)`: `__post_init__` raises `ValueError`
on an invalid amount. -/
def Money.create (amount : Rat) : Except String Money :=
  if Money.is_valid_amount amount then Except.ok ⟨amount⟩
  else Except.error "Invalid amount"

/-- Method `Money.__add__` on two `Money` objects: builds
`Money(amount = self.amount + other.amount)`, re-running validation. -/
def Money.add (a b : Money) : Except String Money :=
  Money.create (a.amount + b.amount)

/-- Sum of two rationals with denominator 1 has denominator 1. -/
theorem den_one_add {x y : Rat} (hx : x.den = 1) (hy : y.den = 1) :
    (x + y).den = 1 := by
  have hx' : ((x.num : Rat)) = x := by
    conv_rhs => rw [← Rat.num_div_den x]
    rw [hx]
    simp
  have hy' : ((y.num : Rat)) = y := by
    conv_rhs => rw [← Rat.num_div_den y]
    rw [hy]
    simp
  have : ((x.num + y.num : Int) : Rat) = x + y := by
    push_cast
    rw [hx', hy']
  rw [← this]
  exact Rat.den_intCast _

/-- Unfolding of `Money._is_valid_amount` into its two conditions. -/
theorem is_valid_amount_iff {a : Rat} :
    Money.is_valid_amount a = true ↔ 0 ≤ a ∧ (a * 100).den = 1 := by
  unfold Money.is_valid_amount
  by_cases h : a < 0
  · simp [h, not_le.mpr h]
  · by_cases h2 : (a * 100).den = 1 <;> simp [h, h2, not_lt.mp h]

/-- Validity of amounts is closed under addition. -/
theorem is_valid_amount_add {a b : Rat}
    (ha : Money.is_valid_amount a = true) (hb : Money.is_valid_amount b = true) :
    Money.is_valid_amount (a + b) = true := by
  rw [is_valid_amount_iff] at ha hb ⊢
  refine ⟨add_nonneg ha.1 hb.1, ?_⟩
  have h : ((a + b) * 100) = a * 100 + b * 100 := by ring
  rw [h]
  exact den_one_add ha.2 hb.2

/-- C7: for valid amounts `a, b`, `Money(a) + Money(b)` constructs
successfully and equals `Money(a + b)` (exact decimal arithmetic, so the
amounts are equal before — hence also after — half-even rounding to two
places). -/
theorem money_add_homomorphism (a b : Rat)
    (ha : Money.is_valid_amount a = true) (hb : Money.is_valid_amount b = true) :
    Money.add ⟨a⟩ ⟨b⟩ = Except.ok ⟨a + b⟩ ∧
      Money.create (a + b) = Except.ok ⟨a + b⟩ := by
  have hab := is_valid_amount_add ha hb
  constructor
  · simp [Money.add, Money.create, hab]
  · simp [Money.create, hab]

/-- Concrete validity fact: `1.25` is a valid amount. -/
theorem valid_amount_five_quarters : Money.is_valid_amount ((5 : Rat) / 4) = true := by
  rw [is_valid_amount_iff]
  constructor
  · norm_num
  · norm_num

/-- Concrete validity fact: `2.5` is a valid amount. -/
theorem valid_amount_five_halves : Money.is_valid_amount ((5 : Rat) / 2) = true := by
  rw [is_valid_amount_iff]
  constructor
  · norm_num
  · norm_num

/-- C7 witness: `Money(1.25) + Money(2.5) == Money(3.75)` concretely. -/
theorem money_add_homomorphism_witness :
    Money.add ⟨(5 : Rat) / 4⟩ ⟨(5 : Rat) / 2⟩ = Except.ok ⟨(5 : Rat) / 4 + (5 : Rat) / 2⟩ ∧
      Money.create ((5 : Rat) / 4 + (5 : Rat) / 2) = Except.ok ⟨(5 : Rat) / 4 + (5 : Rat) / 2⟩ :=
  money_add_homomorphism ((5 : Rat) / 4) ((5 : Rat) / 2)
    valid_amount_five_quarters valid_amount_five_halves

/-! ## Value object: SKU (`sku.py`) -/

/-- Tail of the SKU regex `[A-Za-z]+-\d{4}-[A-Za-z]{3}$` after the
leading letters: a hyphen, four digits, a hyphen, three letters, then
the end of the string — where `$` in a Python (non-MULTILINE) pattern
also matches just before a single trailing newline. Digits and letters
are the ASCII ranges (`[A-Za-z]` in the pattern; `\d` is modelled as
ASCII digits). -/
def skuPatternTail (t : List Char) : Bool :=
  match t with
  | c0 :: d1 :: d2 :: d3 :: d4 :: c5 :: l1 :: l2 :: l3 :: rest =>
      (c0 == '-') && d1.isDigit && d2.isDigit && d3.isDigit && d4.isDigit &&
      (c5 == '-') && l1.isAlpha && l2.isAlpha && l3.isAlpha &&
      (decide (rest = []) || decide (rest = ['\n']))
  | _ => false

/-- Result of `re.match` for the anchored pattern
`[A-Za-z]+-\d{4}-[A-Za-z]{3}$`: since a letter never matches the
literal hyphen that follows, the match must consume exactly the maximal
letter prefix. -/
def skuPatternMatch (s : List Char) : Bool :=
  decide (s.takeWhile Char.isAlpha ≠ []) && skuPatternTail (s.dropWhile Char.isAlpha)

/-- Static method `SKU._is_valid_sku`: the length must be strictly
between 8 and 15, and the string must match the pattern. -/
def SKU.is_valid_sku (values : List Char) : Bool :=
  if ¬ (8 < values.length ∧ values.length < 15) then false
  else if skuPatternMatch values = false then false
  else true

/-- Shape named by the claim: one or more letters, a hyphen, four
digits, a hyphen, three letters — making up the whole string. -/
def SkuShape (s : List Char) : Prop :=
  ∃ (ls : List Char) (d1 d2 d3 d4 l1 l2 l3 : Char),
    s = ls ++ '-' :: d1 :: d2 :: d3 :: d4 :: '-' :: l1 :: l2 :: l3 :: [] ∧
    ls ≠ [] ∧ (∀ c ∈ ls, c.isAlpha = true) ∧
    (d1.isDigit && d2.isDigit && d3.isDigit && d4.isDigit) = true ∧
    (l1.isAlpha && l2.isAlpha && l3.isAlpha) = true

/-- Taking while `p` holds over a list that starts with a block
satisfying `p` followed by an element refuting `p` yields the block. -/
theorem takeWhile_all_append {p : Char → Bool} (ls : List Char) (x : Char)
    (r : List Char) (h : ∀ c ∈ ls, p c = true) (hx : p x = false) :
    (ls ++ x :: r).takeWhile p = ls := by
  induction ls with
  | nil => simp [List.takeWhile, hx]
  | cons a as ih =>
      have ha : p a = true := h a (by simp)
      simp only [List.cons_append, List.takeWhile, ha]
      exact congrArg (List.cons a) (ih (fun c hc => h c (by simp [hc])))

/-- Dropping while `p` holds over the same kind of list yields the
suffix starting at the refuting element. -/
theorem dropWhile_all_append {p : Char → Bool} (ls : List Char) (x : Char)
    (r : List Char) (h : ∀ c ∈ ls, p c = true) (hx : p x = false) :
    (ls ++ x :: r).dropWhile p = x :: r := by
  induction ls with
  | nil => simp [List.dropWhile, hx]
  | cons a as ih =>
      have ha : p a = true := h a (by simp)
      simp only [List.cons_append, List.dropWhile, ha]
      exact ih (fun c hc => h c (by simp [hc]))

/-- Characterisation of the regex match in terms of the claim's shape:
the pattern matches exactly the strings of the shape, optionally
followed by one trailing newline. -/
theorem skuPatternMatch_iff (s : List Char) :
    skuPatternMatch s = true ↔
      (SkuShape s ∨ ∃ core, s = core ++ ['\n'] ∧ SkuShape core) := by
  constructor
  · intro hm
    unfold skuPatternMatch at hm
    rw [Bool.and_eq_true] at hm
    obtain ⟨hne, htail⟩ := hm
    rw [decide_eq_true_eq] at hne
    have hall : ∀ c ∈ s.takeWhile Char.isAlpha, c.isAlpha = true :=
      fun c hc => List.mem_takeWhile_imp hc
    have hsplit : s.takeWhile Char.isAlpha ++ s.dropWhile Char.isAlpha = s :=
      List.takeWhile_append_dropWhile Char.isAlpha s
    generalize hT : s.dropWhile Char.isAlpha = t at htail hsplit
    rcases t with _ | ⟨c0, t⟩
    · exact absurd htail (by simp [skuPatternTail])
    rcases t with _ | ⟨d1, t⟩
    · exact absurd htail (by simp [skuPatternTail])
    rcases t with _ | ⟨d2, t⟩
    · exact absurd htail (by simp [skuPatternTail])
    rcases t with _ | ⟨d3, t⟩
    · exact absurd htail (by simp [skuPatternTail])
    rcases t with _ | ⟨d4, t⟩
    · exact absurd htail (by simp [skuPatternTail])
    rcases t with _ | ⟨c5, t⟩
    · exact absurd htail (by simp [skuPatternTail])
    rcases t with _ | ⟨l1, t⟩
    · exact absurd htail (by simp [skuPatternTail])
    rcases t with _ | ⟨l2, t⟩
    · exact absurd htail (by simp [skuPatternTail])
    rcases t with _ | ⟨l3, rest⟩
    · exact absurd htail (by simp [skuPatternTail])
    simp only [skuPatternTail, Bool.and_eq_true, Bool.or_eq_true, beq_iff_eq,
      decide_eq_true_eq] at htail
    obtain ⟨⟨⟨⟨⟨⟨⟨⟨⟨hc0, hd1⟩, hd2⟩, hd3⟩, hd4⟩, hc5⟩, hl1⟩, hl2⟩, hl3⟩, hrest⟩ := htail
    subst hc0
    subst hc5
    rcases hrest with hrest | hrest
    · subst hrest
      exact Or.inl ⟨s.takeWhile Char.isAlpha, d1, d2, d3, d4, l1, l2, l3,
        hsplit.symm, hne, hall, by simp [hd1, hd2, hd3, hd4], by simp [hl1, hl2, hl3]⟩
    · subst hrest
      refine Or.inr ⟨s.takeWhile Char.isAlpha ++
        '-' :: d1 :: d2 :: d3 :: d4 :: '-' :: l1 :: l2 :: l3 :: [], ?_,
        s.takeWhile Char.isAlpha, d1, d2, d3, d4, l1, l2, l3,
        rfl, hne, hall, by simp [hd1, hd2, hd3, hd4], by simp [hl1, hl2, hl3]⟩
      conv_lhs => rw [← hsplit]
      simp
  · intro h
    have key : ∀ (u : List Char), SkuShape u → ∀ (rest : List Char),
        rest = [] ∨ rest = ['\n'] →
        skuPatternMatch (u ++ rest) = true := by
      intro u hu rest hrest
      obtain ⟨ls, d1, d2, d3, d4, l1, l2, l3, hs, hne, hall, hd, hl⟩ := hu
      simp only [Bool.and_eq_true] at hd hl
      subst hs
      have hshape : (ls ++ '-' :: d1 :: d2 :: d3 :: d4 :: '-' :: l1 :: l2 :: l3 :: []) ++ rest
          = ls ++ '-' :: d1 :: d2 :: d3 :: d4 :: '-' :: l1 :: l2 :: l3 :: rest := by
        simp
      rw [hshape]
      unfold skuPatternMatch
      rw [takeWhile_all_append ls '-' _ hall (by decide),
        dropWhile_all_append ls '-' _ hall (by decide)]
      rcases hrest with h1 | h1 <;> subst h1 <;>
        simp [skuPatternTail, hne, hd.1.1.1, hd.1.1.2, hd.1.2, hd.2,
          hl.1.1, hl.1.2, hl.2]
    rcases h with hs | ⟨core, hcore, hshape⟩
    · have := key s hs [] (Or.inl rfl)
      simpa using this
    · subst hcore
      exact key core hshape ['\n'] (Or.inr rfl)

/-- C8 (amended): `SKU._is_valid_sku` accepts exactly the strings of
total length strictly between 8 and 15 that match the shape
LETTERS-4DIGITS-3LETTERS, optionally followed by a single trailing
newline; in particular a shape-matching string with six or more leading
letters (length 15 or more) is rejected. -/
theorem sku_valid_iff_shape_and_length (s : List Char) :
    SKU.is_valid_sku s = true ↔
      ((SkuShape s ∨ ∃ core, s = core ++ ['\n'] ∧ SkuShape core) ∧
        8 < s.length ∧ s.length < 15) := by
  rw [← skuPatternMatch_iff]
  unfold SKU.is_valid_sku
  by_cases hlen : 8 < s.length ∧ s.length < 15
  · by_cases hm : skuPatternMatch s = true
    · simp [hlen, hm]
    · rw [Bool.not_eq_true] at hm
      simp [hlen, hm]
  · simp [hlen]

/-- C8 counterexample: `ABCDEF-1234-XYZ` matches the claimed shape
(six letters, hyphen, four digits, hyphen, three letters) but has
length 15, so `SKU._is_valid_sku` rejects it: acceptance is not
equivalent to matching the shape. -/
theorem sku_claim_counterexample :
    SkuShape ('A' :: 'B' :: 'C' :: 'D' :: 'E' :: 'F' :: '-' :: '1' :: '2' :: '3'
        :: '4' :: '-' :: 'X' :: 'Y' :: 'Z' :: []) ∧
      SKU.is_valid_sku ('A' :: 'B' :: 'C' :: 'D' :: 'E' :: 'F' :: '-' :: '1' :: '2' :: '3'
        :: '4' :: '-' :: 'X' :: 'Y' :: 'Z' :: []) = false := by
  constructor
  · exact ⟨['A', 'B', 'C', 'D', 'E', 'F'], '1', '2', '3', '4', 'X', 'Y', 'Z',
      rfl, by decide, by decide, by decide, by decide⟩
  · decide

/-! ## Entities: Ingredient and Product (`ingredient.py`, `product.py`) -/

/-- Enum `IngredientType` from `ingredient.py`. -/
inductive IngredientType where
  | BREAD
  | MEAT
  | CHEESE
  | VEGETABLE
  | SALAD
  | SAUCE
  | ICE
  | MILK
  | TOPPING
deriving DecidableEq, Repr

/-- Entity `Ingredient`: a dataclass, so Python `==` (used by membership
tests in receipts) is field-by-field value equality, matching the
derived `DecidableEq`. The `Name` value object is modelled by its
character data. -/
structure Ingredient where
  name : List Char
  price : Money
  is_active : Bool
  type : IngredientType
  applies_to_burger : Bool
  applies_to_side : Bool
  applies_to_drink : Bool
  applies_to_dessert : Bool
  internal_id : Option Nat
deriving DecidableEq, Repr

/-- Method `Ingredient._validate_business_rules`. The `not self.name`,
`not self.price` and `not self.type` checks are on always-truthy
objects and can never fire, so only the `applies_to` rules remain. -/
def Ingredient.validate_business_rules (i : Ingredient) : Bool :=
  (i.applies_to_burger || i.applies_to_side || i.applies_to_drink
      || i.applies_to_dessert) &&
  (!i.applies_to_burger || decide (i.type ∈ [IngredientType.BREAD,
      IngredientType.MEAT, IngredientType.CHEESE, IngredientType.VEGETABLE,
      IngredientType.SALAD, IngredientType.SAUCE])) &&
  (!i.applies_to_side || decide (i.type ∈ [IngredientType.SALAD,
      IngredientType.SAUCE, IngredientType.VEGETABLE])) &&
  (!i.applies_to_drink || decide (i.type ∈ [IngredientType.ICE,
      IngredientType.MILK])) &&
  (!i.applies_to_dessert || decide (i.type ∈ [IngredientType.TOPPING]))

/-- Enum `ProductCategory` from `product.py`. -/
inductive ProductCategory where
  | BURGER
  | SIDE
  | DRINK
  | DESSERT
deriving DecidableEq, Repr

/-- Class `ProductReceiptItem`: an (ingredient, quantity) pair. The
quantity is a Python `int` (no validation anywhere restricts it). -/
structure ProductReceiptItem where
  ingredient : Ingredient
  quantity : Int
deriving DecidableEq, Repr

/-- Entity `Product`. SKU and name value objects are modelled by their
character data. -/
structure Product where
  name : List Char
  price : Money
  category : ProductCategory
  sku : List Char
  default_ingredient : List ProductReceiptItem
  is_active : Bool
  internal_id : Option Nat
deriving DecidableEq, Repr

/-- Category-applicability flag inspected by the `for` loop of
`Product._validate_business_rules`. -/
def appliesToCategory (c : ProductCategory) (i : Ingredient) : Bool :=
  match c with
  | ProductCategory.BURGER => i.applies_to_burger
  | ProductCategory.SIDE => i.applies_to_side
  | ProductCategory.DRINK => i.applies_to_drink
  | ProductCategory.DESSERT => i.applies_to_dessert

/-- Method `Product._validate_business_rules`. The `not self.name`,
`not self.price`, `not self.category`, `not self.sku` checks are on
always-truthy objects and `self.category not in ProductCategory` is
always false for enum members, so what remains is the non-empty default
ingredient list and the per-category applicability loop. -/
def Product.validate_business_rules (p : Product) : Bool :=
  decide (p.default_ingredient ≠ []) &&
  p.default_ingredient.all (fun item => appliesToCategory p.category item.ingredient)

/-! ## Entity: OrderItem receipt computation (`order.py`) -/

/-- Method `OrderItem._serialize_default_ingredients`: each default
(ingredient, quantity) pair contributes `quantity` copies when
`quantity > 1` and exactly one copy otherwise (also for zero or
negative quantities). -/
def serialize_default_ingredients (defaults : List ProductReceiptItem) :
    List Ingredient :=
  defaults.flatMap (fun item =>
    if item.quantity > 1 then List.replicate item.quantity.toNat item.ingredient
    else [item.ingredient])

/-- Entry of the `ingredient_map` dict of `_generate_item_receipt`:
grouping key (`getattr(ingredient, "internal_id", id(ingredient))`,
which for the `Ingredient` dataclass is always the `internal_id` field,
possibly `None`), representative ingredient, and occurrence count. -/
structure ReceiptEntry where
  key : Option Nat
  ingredient : Ingredient
  quantity : Nat
deriving DecidableEq, Repr

/-- Loop body of the grouping loop of `_generate_item_receipt`: bump the
quantity of the existing entry with this key, or append a fresh entry
at the end (Python dicts preserve insertion order). -/
def addToReceiptMap : List ReceiptEntry → Ingredient → List ReceiptEntry
  | [], ing => [⟨ing.internal_id, ing, 1⟩]
  | e :: es, ing =>
      if e.key = ing.internal_id then ⟨e.key, e.ingredient, e.quantity + 1⟩ :: es
      else e :: addToReceiptMap es ing

/-- Method `OrderItem._generate_item_receipt` as a function of the
fields it reads: returns the existing receipt unchanged when non-empty,
otherwise expands the defaults, filters out members of the remove list,
appends the additional ingredients and groups by `internal_id`. -/
def generate_item_receipt (existing : List ProductReceiptItem)
    (product : Product) (additional_ingredient remove_ingredient : List Ingredient) :
    List ProductReceiptItem :=
  if existing ≠ [] then existing
  else
    let default_ingredient := serialize_default_ingredients product.default_ingredient
    let filtered_default :=
      default_ingredient.filter (fun item => decide (item ∉ remove_ingredient))
    let full_list := filtered_default ++ additional_ingredient
    (full_list.foldl addToReceiptMap []).map
      (fun e => ⟨e.ingredient, (e.quantity : Int)⟩)

/-! Spec-side description of the receipt computation. -/

/-- Keys in order of first occurrence: the insertion order of a Python
dict keyed by them. -/
def firstOccurrenceKeys (l : List (Option Nat)) : List (Option Nat) :=
  l.foldl (fun acc k => if k ∈ acc then acc else acc ++ [k]) []

/-- Entry produced for one identifier by the grouping the spec
describes: the first ingredient carrying the identifier together with
the number of occurrences of the identifier. -/
def entryFor (full : List Ingredient) (k : Option Nat) : Option ReceiptEntry :=
  match full.find? (fun i => i.internal_id == k) with
  | some i => some ⟨k, i, full.countP (fun i => i.internal_id == k)⟩
  | none => none

/-- Grouping as the spec words it: one entry per distinct ingredient
identifier, in first-occurrence order, with occurrence counts as
quantities. -/
def groupByIdentifier (full : List Ingredient) : List ReceiptEntry :=
  (firstOccurrenceKeys (full.map Ingredient.internal_id)).filterMap (entryFor full)

/-- Expansion exactly as the claim words it: each (ingredient, qty)
default pair contributes `qty` occurrences. -/
def expandDefaultsClaim (defaults : List ProductReceiptItem) : List Ingredient :=
  defaults.flatMap (fun item => List.replicate item.quantity.toNat item.ingredient)

/-- Receipt as the claim words it: expand defaults by their exact
quantities, drop members of the remove list, append the additional
ingredients, group by identifier. -/
def receiptClaim (product : Product) (additional remove : List Ingredient) :
    List ProductReceiptItem :=
  let full := (expandDefaultsClaim product.default_ingredient).filter
      (fun item => decide (item ∉ remove)) ++ additional
  (groupByIdentifier full).map (fun e => ⟨e.ingredient, (e.quantity : Int)⟩)

/-- Expansion as the code actually behaves: a default pair with
`quantity ≤ 1` (including zero and negative quantities) still
contributes one occurrence, i.e. `max quantity 1` occurrences. -/
def expandDefaultsAmended (defaults : List ProductReceiptItem) : List Ingredient :=
  defaults.flatMap (fun item =>
    List.replicate (max item.quantity 1).toNat item.ingredient)

/-- Receipt as the amended claim words it. -/
def receiptAmended (product : Product) (additional remove : List Ingredient) :
    List ProductReceiptItem :=
  let full := (expandDefaultsAmended product.default_ingredient).filter
      (fun item => decide (item ∉ remove)) ++ additional
  (groupByIdentifier full).map (fun e => ⟨e.ingredient, (e.quantity : Int)⟩)

/-- Membership in the key-collecting fold, generalised over the
accumulator. -/
theorem foldl_keys_mem (l : List (Option Nat)) (acc : List (Option Nat))
    (k : Option Nat) :
    (k ∈ l.foldl (fun acc k => if k ∈ acc then acc else acc ++ [k]) acc) ↔
      k ∈ acc ∨ k ∈ l := by
  induction l generalizing acc with
  | nil => simp
  | cons a l ih =>
      simp only [List.foldl_cons, List.mem_cons]
      by_cases ha : a ∈ acc
      · rw [if_pos ha, ih]
        constructor
        · rintro (h | h)
          · exact Or.inl h
          · exact Or.inr (Or.inr h)
        · rintro (h | rfl | h)
          · exact Or.inl h
          · exact Or.inl ha
          · exact Or.inr h
      · rw [if_neg ha, ih]
        simp only [List.mem_append, List.mem_singleton]
        tauto

/-- Keys of the grouping are exactly the identifiers occurring in the
list. -/
theorem mem_firstOccurrenceKeys {l : List (Option Nat)} {k : Option Nat} :
    k ∈ firstOccurrenceKeys l ↔ k ∈ l := by
  unfold firstOccurrenceKeys
  rw [foldl_keys_mem]
  simp

/-- The key-collecting fold preserves distinctness of the accumulator. -/
theorem foldl_keys_nodup (l : List (Option Nat)) (acc : List (Option Nat))
    (hacc : acc.Nodup) :
    (l.foldl (fun acc k => if k ∈ acc then acc else acc ++ [k]) acc).Nodup := by
  induction l generalizing acc with
  | nil => simpa
  | cons a l ih =>
      rw [List.foldl_cons]
      by_cases ha : a ∈ acc
      · rw [if_pos ha]
        exact ih acc hacc
      · rw [if_neg ha]
        refine ih _ ?_
        rw [List.nodup_append]
        exact ⟨hacc, List.nodup_singleton a, by simpa [List.disjoint_singleton]⟩

/-- First-occurrence keys are distinct. -/
theorem firstOccurrenceKeys_nodup (l : List (Option Nat)) :
    (firstOccurrenceKeys l).Nodup :=
  foldl_keys_nodup l [] (by simp)

/-- Appending one key to the scanned list either leaves the
first-occurrence keys unchanged or appends the new key at the end. -/
theorem firstOccurrenceKeys_append (l : List (Option Nat)) (k : Option Nat) :
    firstOccurrenceKeys (l ++ [k]) =
      if k ∈ firstOccurrenceKeys l then firstOccurrenceKeys l
      else firstOccurrenceKeys l ++ [k] := by
  unfold firstOccurrenceKeys
  rw [List.foldl_append]
  rfl

/-- An entry produced for a key carries that key. -/
theorem entryFor_key {full : List Ingredient} {k : Option Nat} {e : ReceiptEntry}
    (h : entryFor full k = some e) : e.key = k := by
  unfold entryFor at h
  cases hf : full.find? (fun i => i.internal_id == k) with
  | none => rw [hf] at h; exact absurd h (by simp)
  | some i =>
      rw [hf] at h
      injection h with h
      rw [← h]

/-- A key occurring among the identifiers yields an entry. -/
theorem entryFor_isSome_of_mem {full : List Ingredient} {k : Option Nat}
    (h : k ∈ full.map Ingredient.internal_id) :
    (entryFor full k).isSome = true := by
  have hs : (full.find? (fun j => j.internal_id == k)).isSome = true := by
    rw [List.find?_isSome]
    obtain ⟨i, hi, rfl⟩ := List.mem_map.mp h
    exact ⟨i, hi, by simp⟩
  unfold entryFor
  cases hf : full.find? (fun j => j.internal_id == k) with
  | none => rw [hf] at hs; simp at hs
  | some i => simp

/-- Appending an ingredient with a different identifier does not change
the entry of a key. -/
theorem entryFor_append_ne {full : List Ingredient} {x : Ingredient}
    {k : Option Nat} (hk : k ≠ x.internal_id) :
    entryFor (full ++ [x]) k = entryFor full k := by
  have hbeq : (x.internal_id == k) = false :=
    beq_eq_false_iff_ne.mpr (fun h => hk h.symm)
  have h1 : List.find? (fun i => i.internal_id == k) [x] = none := by
    simp [List.find?, hbeq]
  have h2 : List.countP (fun i => i.internal_id == k) [x] = 0 := by
    simp [List.countP_cons, hbeq]
  unfold entryFor
  simp only [List.find?_append, List.countP_append, h1, h2, Option.or_none,
    Nat.add_zero]

/-- Appending an ingredient with a fresh identifier creates a fresh
entry of quantity one for it. -/
theorem entryFor_append_self_new {full : List Ingredient} {x : Ingredient}
    (h : x.internal_id ∉ full.map Ingredient.internal_id) :
    entryFor (full ++ [x]) x.internal_id = some ⟨x.internal_id, x, 1⟩ := by
  have hfind : full.find? (fun i => i.internal_id == x.internal_id) = none := by
    rw [List.find?_eq_none]
    intro i hi hbeq
    exact h (List.mem_map.mpr ⟨i, hi, by simpa using hbeq⟩)
  have hcount : full.countP (fun i => i.internal_id == x.internal_id) = 0 :=
    List.countP_eq_zero.mpr (fun i hi hbeq =>
      h (List.mem_map.mpr ⟨i, hi, by simpa using hbeq⟩))
  unfold entryFor
  simp only [List.find?_append, List.countP_append, hfind, hcount]
  simp [List.find?, List.countP_cons]

/-- Appending an ingredient whose identifier already has an entry bumps
that entry's quantity by one. -/
theorem entryFor_append_self_mem {full : List Ingredient} {x : Ingredient}
    {e : ReceiptEntry} (he : entryFor full x.internal_id = some e) :
    entryFor (full ++ [x]) x.internal_id
      = some ⟨e.key, e.ingredient, e.quantity + 1⟩ := by
  unfold entryFor at he ⊢
  cases hf : full.find? (fun i => i.internal_id == x.internal_id) with
  | none => rw [hf] at he; exact absurd he (by simp)
  | some i =>
      rw [hf] at he
      injection he with he
      rw [← he]
      simp only [List.find?_append, List.countP_append, hf, Option.or_some]
      simp [List.countP_cons]

/-- Walking the receipt map with an ingredient matching no existing key
appends a fresh entry of quantity one at the end. -/
theorem addToReceiptMap_append_new (es : List ReceiptEntry) (x : Ingredient)
    (h : ∀ e ∈ es, e.key ≠ x.internal_id) :
    addToReceiptMap es x = es ++ [⟨x.internal_id, x, 1⟩] := by
  induction es with
  | nil => rfl
  | cons e es ih =>
      rw [addToReceiptMap, if_neg (h e (by simp)),
        ih (fun e' he' => h e' (by simp [he']))]
      simp

/-- Walking the receipt map built from a distinct key list containing
the new ingredient's identifier bumps exactly that key's entry, which is
what the grouping over the extended ingredient list produces. -/
theorem addToReceiptMap_filterMap (l : List Ingredient) (x : Ingredient)
    (K : List (Option Nat)) (hmem : ∀ k ∈ K, k ∈ l.map Ingredient.internal_id)
    (hnd : K.Nodup) (hx : x.internal_id ∈ K) :
    addToReceiptMap (K.filterMap (entryFor l)) x
      = K.filterMap (entryFor (l ++ [x])) := by
  induction K with
  | nil => simp at hx
  | cons k K ih =>
      have hkl := hmem k (by simp)
      obtain ⟨e, he⟩ := Option.isSome_iff_exists.mp (entryFor_isSome_of_mem hkl)
      have hek : e.key = k := entryFor_key he
      rw [List.filterMap_cons_some he]
      by_cases hk : k = x.internal_id
      · subst hk
        rw [addToReceiptMap, if_pos hek]
        have h2 : entryFor (l ++ [x]) x.internal_id
            = some ⟨e.key, e.ingredient, e.quantity + 1⟩ :=
          entryFor_append_self_mem he
        rw [List.filterMap_cons_some h2]
        congr 1
        refine List.filterMap_congr ?_
        intro k' hk'
        have hne : k' ≠ x.internal_id := by
          rintro rfl
          exact (List.nodup_cons.mp hnd).1 hk'
        rw [entryFor_append_ne hne]
      · rw [addToReceiptMap, if_neg (by rw [hek]; exact hk)]
        have h3 : entryFor (l ++ [x]) k = some e := by
          rw [entryFor_append_ne hk]
          exact he
        rw [List.filterMap_cons_some h3]
        congr 1
        refine ih (fun k' h' => hmem k' (by simp [h'])) (List.nodup_cons.mp hnd).2 ?_
        rcases List.mem_cons.mp hx with h | h
        · exact absurd h.symm hk
        · exact h

/-- One step of the grouping loop agrees with the spec-side grouping:
processing one more ingredient is appending it to the grouped list. -/
theorem groupByIdentifier_append (l : List Ingredient) (x : Ingredient) :
    addToReceiptMap (groupByIdentifier l) x = groupByIdentifier (l ++ [x]) := by
  unfold groupByIdentifier
  rw [List.map_append]
  show addToReceiptMap _ x
    = (firstOccurrenceKeys (l.map Ingredient.internal_id ++ [x.internal_id])).filterMap _
  rw [firstOccurrenceKeys_append]
  by_cases hx : x.internal_id ∈ firstOccurrenceKeys (l.map Ingredient.internal_id)
  · rw [if_pos hx]
    exact addToReceiptMap_filterMap l x _ (fun k hk => mem_firstOccurrenceKeys.mp hk)
      (firstOccurrenceKeys_nodup _) hx
  · rw [if_neg hx]
    have hxl : x.internal_id ∉ l.map Ingredient.internal_id :=
      fun h => hx (mem_firstOccurrenceKeys.mpr h)
    rw [List.filterMap_append]
    have hcongr : (firstOccurrenceKeys (l.map Ingredient.internal_id)).filterMap
          (entryFor (l ++ [x]))
        = (firstOccurrenceKeys (l.map Ingredient.internal_id)).filterMap (entryFor l) := by
      refine List.filterMap_congr ?_
      intro k hk
      have hne : k ≠ x.internal_id := by
        rintro rfl
        exact hxl (mem_firstOccurrenceKeys.mp hk)
      rw [entryFor_append_ne hne]
    rw [hcongr]
    have hsing : ([x.internal_id].filterMap (entryFor (l ++ [x])))
        = [⟨x.internal_id, x, 1⟩] := by
      rw [List.filterMap_cons_some (entryFor_append_self_new hxl)]
      rfl
    rw [hsing]
    refine addToReceiptMap_append_new _ x ?_
    intro e he
    obtain ⟨k, hk, hke⟩ := List.mem_filterMap.mp he
    intro hcontra
    have hk2 : k = x.internal_id := by rw [← entryFor_key hke, hcontra]
    rw [hk2] at hk
    exact hxl (mem_firstOccurrenceKeys.mp hk)

/-- The dict-building fold of `_generate_item_receipt` computes exactly
the spec-side grouping by identifier. -/
theorem foldl_addToReceiptMap_eq (l : List Ingredient) :
    l.foldl addToReceiptMap [] = groupByIdentifier l := by
  induction l using List.reverseRecOn with
  | nil => rfl
  | append_singleton l x ih =>
      rw [List.foldl_append, List.foldl_cons, List.foldl_nil, ih,
        groupByIdentifier_append]

/-- The serialisation of the defaults contributes `max quantity 1`
occurrences per default pair. -/
theorem serialize_eq_expandAmended (defaults : List ProductReceiptItem) :
    serialize_default_ingredients defaults = expandDefaultsAmended defaults := by
  unfold serialize_default_ingredients expandDefaultsAmended
  congr 1
  funext item
  by_cases h : item.quantity > 1
  · rw [if_pos h, max_eq_left (le_of_lt h)]
  · rw [if_neg h, max_eq_right (not_lt.mp h)]
    rfl

/-- Sample catalog ingredient with identifier 1 (valid burger bread). -/
def ingredientA : Ingredient :=
  ⟨['A'], ⟨1⟩, true, IngredientType.BREAD, true, false, false, false, some 1⟩

/-- Sample catalog ingredient with identifier 2 (valid burger meat). -/
def ingredientB : Ingredient :=
  ⟨['B'], ⟨2⟩, true, IngredientType.MEAT, true, false, false, false, some 2⟩

/-- Sample catalog ingredient with identifier 3 (valid burger cheese). -/
def ingredientC : Ingredient :=
  ⟨['C'], ⟨3⟩, true, IngredientType.CHEESE, true, false, false, false, some 3⟩

/-- Sample burger with default ingredients A×2 and B×1 — the product of
the claim's concrete example. -/
def exampleBurger : Product :=
  ⟨['b'], ⟨10⟩, ProductCategory.BURGER,
   ['B', 'R', 'G', '-', '0', '0', '0', '1', '-', 'A', 'B', 'C'],
   [⟨ingredientA, 2⟩, ⟨ingredientB, 1⟩], true, some 1⟩

/-- C1 (amended): for every OrderItem built with an empty initial
receipt, the receipt equals the grouped pipeline where each default
(ingredient, qty) pair expands to `max qty 1` occurrences (a pair with
qty ≤ 1, including qty = 0, still contributes one occurrence), every
occurrence equal to a member of the remove list is dropped, the
additional ingredients are appended, and entries are grouped by the
`internal_id` field (ingredients whose ids are absent share the key
`None`) in first-occurrence order with occurrence counts as quantities;
in particular for defaults [A×2, B×1], additional=[C], remove=[A] the
receipt is exactly [B×1, C×1]. -/
theorem generate_item_receipt_eq_grouped :
    (∀ (product : Product) (additional remove : List Ingredient),
      generate_item_receipt [] product additional remove
        = receiptAmended product additional remove) ∧
    generate_item_receipt [] exampleBurger [ingredientC] [ingredientA]
      = [⟨ingredientB, 1⟩, ⟨ingredientC, 1⟩] := by
  constructor
  · intro product additional remove
    have h0 : generate_item_receipt [] product additional remove
        = ((((serialize_default_ingredients product.default_ingredient).filter
              (fun item => decide (item ∉ remove))) ++ additional).foldl
            addToReceiptMap []).map (fun e => ⟨e.ingredient, (e.quantity : Int)⟩) := rfl
    rw [h0, serialize_eq_expandAmended, foldl_addToReceiptMap_eq]
    rfl
  · decide

/-- Sample product whose single default pair has quantity zero. -/
def zeroQtyProduct : Product :=
  ⟨['z'], ⟨10⟩, ProductCategory.BURGER,
   ['Z', 'R', 'O', '-', '0', '0', '0', '2', '-', 'A', 'B', 'C'],
   [⟨ingredientA, 0⟩], true, some 2⟩

/-- C1 counterexample: for a (fully valid) product whose default pair
is A×0, the claim's expansion ("qty repeated occurrences") yields the
empty receipt, but the code's `else: result.append(...)` branch emits
one occurrence for any quantity ≤ 1, so the computed receipt is A×1. -/
theorem receipt_claim_counterexample :
    generate_item_receipt [] zeroQtyProduct [] [] = [⟨ingredientA, 1⟩] ∧
      receiptClaim zeroQtyProduct [] [] = [] ∧
      Product.validate_business_rules zeroQtyProduct = true ∧
      Ingredient.validate_business_rules ingredientA = true := by
  refine ⟨by decide, by decide, by decide, by decide⟩

/-! ## Entity: OrderItem (`order.py`) -/

/-- Addition used inside `OrderItem._calculate_price` and
`Order.calculate_value`: `Money.__add__` builds `Money(a + b)`, whose
re-validation can never fail for the valid non-negative operands
arising there (`is_valid_amount_add`), so it is modelled as plain
amount addition. -/
def Money.plus (a b : Money) : Money := ⟨a.amount + b.amount⟩

/-- Entity `OrderItem` with its dataclass fields. -/
structure OrderItem where
  order_internal_id : Nat
  product : Product
  additional_ingredient : List Ingredient
  remove_ingredient : List Ingredient
  item_receipt : List ProductReceiptItem
  price : Money
  internal_id : Option Nat
deriving DecidableEq, Repr

/-- Method `OrderItem._calculate_price`: keep a non-zero price, else sum
the product price and the additional ingredients' prices. -/
def calculate_price (price : Money) (product : Product)
    (additional_ingredient : List Ingredient) : Money :=
  if price.amount ≠ (0 : Rat) then price
  else additional_ingredient.foldl (fun acc i => Money.plus acc i.price) product.price

/-- Construction `OrderItem(...)`: `__post_init__` generates the receipt
and computes the price. Python defaults are an empty receipt, a zero
price and no id; callers here pass every field explicitly. -/
def OrderItem.create (order_internal_id : Nat) (product : Product)
    (additional_ingredient remove_ingredient : List Ingredient)
    (item_receipt : List ProductReceiptItem) (price : Money)
    (internal_id : Option Nat) : OrderItem :=
  ⟨order_internal_id, product, additional_ingredient, remove_ingredient,
   generate_item_receipt item_receipt product additional_ingredient remove_ingredient,
   calculate_price price product additional_ingredient, internal_id⟩

/-! ## Entity: Order (`order.py`) -/

/-- Payment payload dict passed to `Order.process_payment`: `Option`
captures presence of each key, `payment.get(key, default)` is `getD`.
Dates are opaque timestamps. -/
structure Payment where
  transaction_id : Option (List Char)
  date : Option Nat
  message : Option (List Char)
  approval_status : Option Bool
deriving DecidableEq, Repr

/-- Entity `Order` with its dataclass fields. -/
structure Order where
  customer_internal_id : Nat
  order_items : List OrderItem
  value : Option Money
  status : Option OrderStatus
  start_date : Option Nat
  end_date : Option Nat
  has_payment_verified : Bool
  payment_date : Option Nat
  payment_transaction_id : List Char
  payment_message : List Char
  internal_id : Option Nat
  order_display_id : List Char
  skip_active_validation : Bool
deriving DecidableEq, Repr

/-- Method `Order._validate_business_rules`: a zero customer id is falsy
and rejected; the items list must be non-empty; every item's product
(an always-truthy object) must be active; a present (hence truthy)
`Money` value must have a positive amount. -/
def Order.validate_business_rules (o : Order) : Except String Unit :=
  if o.customer_internal_id = 0 then
    Except.error "Order must have a customer internal ID"
  else if o.order_items = [] then
    Except.error "Order must have at least one item"
  else if !(o.order_items.all (fun item => item.product.is_active)) then
    Except.error "Order items must have active products"
  else
    match o.value with
    | some v =>
        if v.amount ≤ 0 then Except.error "Order value must be positive"
        else Except.ok ()
    | none => Except.ok ()

/-- Method `Order._validate_business_rules_skip_active_check`: the same
rules minus the active-product check. -/
def Order.validate_business_rules_skip_active_check (o : Order) :
    Except String Unit :=
  if o.customer_internal_id = 0 then
    Except.error "Order must have a customer internal ID"
  else if o.order_items = [] then
    Except.error "Order must have at least one item"
  else
    match o.value with
    | some v =>
        if v.amount ≤ 0 then Except.error "Order value must be positive"
        else Except.ok ()
    | none => Except.ok ()

/-- Method `Order._check_or_create_status`: default a missing status to
RECEBIDO. -/
def Order.check_or_create_status (o : Order) : Order :=
  match o.status with
  | none => { o with status := some ⟨OrderStatusType.RECEBIDO⟩ }
  | some _ => o

/-- Method `Order.calculate_value`: sum of the item prices starting from
`Money(0.0)` (every item price is already a `Money`, so the
`isinstance` branch is the identity). -/
def Order.calculate_value (o : Order) : Money :=
  o.order_items.foldl (fun acc item => Money.plus acc item.price) ⟨0⟩

/-- Python `str.zfill`: left-pad with `'0'` to the given width (the ids
in play are non-negative, so no sign handling arises). -/
def zfill (s : List Char) (width : Nat) : List Char :=
  List.replicate (width - s.length) '0' ++ s

/-- Method `Order._set_display_id`: for a truthy (present and non-zero)
internal id, the display id is `str(internal_id).zfill(3)[:3]`. -/
def Order.set_display_id (o : Order) : Order :=
  match o.internal_id with
  | some n =>
      if n ≠ 0 then
        { o with order_display_id := (zfill (Nat.toDigits 10 n) 3).take 3 }
      else o
  | none => o

/-- Method `Order.update_display_id`: same computation, also guarded on
the display id still being empty (falsy). -/
def Order.update_display_id (o : Order) : Order :=
  match o.internal_id with
  | some n =>
      if n ≠ 0 ∧ o.order_display_id = [] then
        { o with order_display_id := (zfill (Nat.toDigits 10 n) 3).take 3 }
      else o
  | none => o

/-- Order dataclass state as first assembled from the constructor
arguments, before `__post_init__` runs: fields not settable through the
claims' constructions keep their dataclass defaults. -/
def Order.initOrder (customer_internal_id : Nat) (order_items : List OrderItem)
    (value : Option Money) (status : Option OrderStatus)
    (internal_id : Option Nat) (skip_active_validation : Bool) : Order :=
  ⟨customer_internal_id, order_items, value, status, none, none,
   false, none, [], [], internal_id, [], skip_active_validation⟩

/-- Value step of `Order.__post_init__`: keep a value that is not
`None`, else compute one from the items. -/
def Order.post_init_value (o : Order) : Order :=
  if o.value.isSome then o else { o with value := some o.calculate_value }

/-- Construction `Order(...)` running `__post_init__`: validate (with or
without the active-product check), default the status, keep an explicit
value or compute one from the items, then set the display id. -/
def Order.create (customer_internal_id : Nat) (order_items : List OrderItem)
    (value : Option Money) (status : Option OrderStatus)
    (internal_id : Option Nat) (skip_active_validation : Bool) :
    Except String Order :=
  match (if skip_active_validation then
          (Order.initOrder customer_internal_id order_items value status
            internal_id skip_active_validation).validate_business_rules_skip_active_check
         else
          (Order.initOrder customer_internal_id order_items value status
            internal_id skip_active_validation).validate_business_rules) with
  | Except.error e => Except.error e
  | Except.ok _ =>
      Except.ok (Order.initOrder customer_internal_id order_items value status
        internal_id skip_active_validation).check_or_create_status.post_init_value.set_display_id

/-- Method `Order.validate_duplicated_payment`: raise when the payment
was already verified. -/
def Order.validate_duplicated_payment (o : Order) : Except String Unit :=
  if o.has_payment_verified then
    Except.error "Payment has already been verified for this order"
  else Except.ok ()

/-- Method `Order.process_payment`: the transaction id, date and message
fields are overwritten first; an approved payment then passes the
duplicate check (raising with the order already mutated — the error
carries that state, as the caller's object keeps it in Python), marks
the payment verified and moves to EM_PREPARACAO; a missing or falsy
approval status unmarks verification and cancels. -/
def Order.process_payment (o : Order) (payment : Payment) :
    Except (String × Order) Order :=
  let o := { o with
    payment_transaction_id := payment.transaction_id.getD [],
    payment_date := payment.date,
    payment_message := payment.message.getD [] }
  if payment.approval_status.getD false then
    match o.validate_duplicated_payment with
    | Except.error e => Except.error (e, o)
    | Except.ok _ =>
        Except.ok
          { o with
            has_payment_verified := true,
            status := some ⟨OrderStatusType.EM_PREPARACAO⟩ }
  else
    Except.ok
      { o with
        has_payment_verified := false,
        status := some ⟨OrderStatusType.CANCELADO⟩ }

/-- Sample order item: the example burger, no additions or removals. -/
def sampleItem : OrderItem :=
  OrderItem.create 0 exampleBurger [] [] [] ⟨0⟩ none

/-- Sample order whose payment is not yet verified. -/
def unverifiedOrder : Order :=
  ⟨1, [sampleItem], some ⟨10⟩, some ⟨OrderStatusType.RECEBIDO⟩, none, none,
   false, none, [], [], some 7, ['0', '0', '7'], false⟩

/-- Sample order whose payment is already verified. -/
def verifiedOrder : Order :=
  ⟨1, [sampleItem], some ⟨10⟩, some ⟨OrderStatusType.EM_PREPARACAO⟩, none, none,
   true, none, [], [], some 7, ['0', '0', '7'], false⟩

/-- Sample approved payment payload. -/
def approvedPayment : Payment :=
  ⟨some ['t', 'x'], some 5, some ['o', 'k'], some true⟩

/-- Sample rejected payment payload. -/
def rejectedPayment : Payment :=
  ⟨some ['t', 'x'], some 5, some ['n', 'o'], some false⟩

/-- C5: on an order not yet payment-verified, an approved payment marks
it verified with status EM_PREPARACAO, and a missing or falsy approval
status unmarks verification with status CANCELADO — in both cases
without error. -/
theorem process_payment_unverified_spec (o : Order) (p : Payment)
    (h : o.has_payment_verified = false) :
    ∃ o2, o.process_payment p = Except.ok o2 ∧
      (p.approval_status.getD false = true →
        o2.has_payment_verified = true ∧
        o2.status = some ⟨OrderStatusType.EM_PREPARACAO⟩) ∧
      (p.approval_status.getD false = false →
        o2.has_payment_verified = false ∧
        o2.status = some ⟨OrderStatusType.CANCELADO⟩) := by
  cases ha : p.approval_status.getD false with
  | true =>
      refine ⟨{ o with
          payment_transaction_id := p.transaction_id.getD [],
          payment_date := p.date,
          payment_message := p.message.getD [],
          has_payment_verified := true,
          status := some ⟨OrderStatusType.EM_PREPARACAO⟩ }, ?_, ?_, ?_⟩
      · simp [Order.process_payment, Order.validate_duplicated_payment, ha, h]
      · intro _
        exact ⟨rfl, rfl⟩
      · intro hc
        cases hc
  | false =>
      refine ⟨{ o with
          payment_transaction_id := p.transaction_id.getD [],
          payment_date := p.date,
          payment_message := p.message.getD [],
          has_payment_verified := false,
          status := some ⟨OrderStatusType.CANCELADO⟩ }, ?_, ?_, ?_⟩
      · simp [Order.process_payment, ha]
      · intro hc
        cases hc
      · intro _
        exact ⟨rfl, rfl⟩

/-- C5 witness: an approved payment on the sample unverified order. -/
theorem process_payment_unverified_spec_witness :
    ∃ o2, unverifiedOrder.process_payment approvedPayment = Except.ok o2 ∧
      (approvedPayment.approval_status.getD false = true →
        o2.has_payment_verified = true ∧
        o2.status = some ⟨OrderStatusType.EM_PREPARACAO⟩) ∧
      (approvedPayment.approval_status.getD false = false →
        o2.has_payment_verified = false ∧
        o2.status = some ⟨OrderStatusType.CANCELADO⟩) :=
  process_payment_unverified_spec unverifiedOrder approvedPayment rfl

/-- C2 (amended): on an already-verified order, `process_payment` fails
with the duplicate-payment error only when the payload is approved; a
rejected or approval-less payload does not raise — it unmarks
verification and cancels the order. -/
theorem process_payment_verified_cases (o : Order) (p : Payment)
    (h : o.has_payment_verified = true) :
    (p.approval_status.getD false = true →
      o.process_payment p = Except.error
        ("Payment has already been verified for this order",
         { o with
           payment_transaction_id := p.transaction_id.getD [],
           payment_date := p.date,
           payment_message := p.message.getD [] })) ∧
    (p.approval_status.getD false = false →
      o.process_payment p = Except.ok
        { o with
          payment_transaction_id := p.transaction_id.getD [],
          payment_date := p.date,
          payment_message := p.message.getD [],
          has_payment_verified := false,
          status := some ⟨OrderStatusType.CANCELADO⟩ }) := by
  constructor
  · intro ha
    simp [Order.process_payment, Order.validate_duplicated_payment, ha, h]
  · intro ha
    simp [Order.process_payment, ha]

/-- C2 witness: the duplicate-payment error is raised concretely for an
approved payment on the sample verified order. -/
theorem process_payment_verified_cases_witness :
    (approvedPayment.approval_status.getD false = true →
      verifiedOrder.process_payment approvedPayment = Except.error
        ("Payment has already been verified for this order",
         { verifiedOrder with
           payment_transaction_id := approvedPayment.transaction_id.getD [],
           payment_date := approvedPayment.date,
           payment_message := approvedPayment.message.getD [] })) ∧
    (approvedPayment.approval_status.getD false = false →
      verifiedOrder.process_payment approvedPayment = Except.ok
        { verifiedOrder with
          payment_transaction_id := approvedPayment.transaction_id.getD [],
          payment_date := approvedPayment.date,
          payment_message := approvedPayment.message.getD [],
          has_payment_verified := false,
          status := some ⟨OrderStatusType.CANCELADO⟩ }) :=
  process_payment_verified_cases verifiedOrder approvedPayment rfl

/-- C2 counterexample: a rejected payment on an already-verified order
does not fail; it succeeds, unmarking verification and cancelling the
order — so "processing payment twice always errors" is false for
rejected payloads. -/
theorem process_payment_rejected_on_verified_no_error :
    verifiedOrder.has_payment_verified = true ∧
      verifiedOrder.process_payment rejectedPayment = Except.ok
        { verifiedOrder with
          payment_transaction_id := ['t', 'x'],
          payment_date := some 5,
          payment_message := ['n', 'o'],
          has_payment_verified := false,
          status := some ⟨OrderStatusType.CANCELADO⟩ } :=
  ⟨rfl, rfl⟩

/-- C10: whenever `process_payment` raises, the order state carried at
the raise has its status and verification flag unchanged, while the
transaction id, date and message have already been overwritten with the
payload's values. -/
theorem process_payment_error_frame (o o2 : Order) (p : Payment) (e : String)
    (h : o.process_payment p = Except.error (e, o2)) :
    o2.status = o.status ∧ o2.has_payment_verified = o.has_payment_verified ∧
      o2.payment_transaction_id = p.transaction_id.getD [] ∧
      o2.payment_date = p.date ∧
      o2.payment_message = p.message.getD [] := by
  cases ha : p.approval_status.getD false with
  | false =>
      have hcomp : o.process_payment p = Except.ok
          { o with
            payment_transaction_id := p.transaction_id.getD [],
            payment_date := p.date,
            payment_message := p.message.getD [],
            has_payment_verified := false,
            status := some ⟨OrderStatusType.CANCELADO⟩ } := by
        simp [Order.process_payment, ha]
      rw [hcomp] at h
      cases h
  | true =>
      cases hv : o.has_payment_verified with
      | false =>
          have hcomp : o.process_payment p = Except.ok
              { o with
                payment_transaction_id := p.transaction_id.getD [],
                payment_date := p.date,
                payment_message := p.message.getD [],
                has_payment_verified := true,
                status := some ⟨OrderStatusType.EM_PREPARACAO⟩ } := by
            simp [Order.process_payment, Order.validate_duplicated_payment, ha, hv]
          rw [hcomp] at h
          cases h
      | true =>
          have hcomp : o.process_payment p = Except.error
              ("Payment has already been verified for this order",
               { o with
                 payment_transaction_id := p.transaction_id.getD [],
                 payment_date := p.date,
                 payment_message := p.message.getD [] }) := by
            simp [Order.process_payment, Order.validate_duplicated_payment, ha, hv]
          rw [hcomp] at h
          injection h with h2
          rw [Prod.mk.injEq] at h2
          obtain ⟨-, ho2⟩ := h2
          rw [← ho2]
          exact ⟨rfl, hv, rfl, rfl, rfl⟩

/-- C10 witness: the frame condition realised at the sample verified
order and approved payment. -/
theorem process_payment_error_frame_witness :
    ({ verifiedOrder with
        payment_transaction_id := ['t', 'x'],
        payment_date := some 5,
        payment_message := ['o', 'k'] } : Order).status = verifiedOrder.status ∧
      ({ verifiedOrder with
          payment_transaction_id := ['t', 'x'],
          payment_date := some 5,
          payment_message := ['o', 'k'] } : Order).has_payment_verified
        = verifiedOrder.has_payment_verified ∧
      ({ verifiedOrder with
          payment_transaction_id := ['t', 'x'],
          payment_date := some 5,
          payment_message := ['o', 'k'] } : Order).payment_transaction_id
        = approvedPayment.transaction_id.getD [] ∧
      ({ verifiedOrder with
          payment_transaction_id := ['t', 'x'],
          payment_date := some 5,
          payment_message := ['o', 'k'] } : Order).payment_date
        = approvedPayment.date ∧
      ({ verifiedOrder with
          payment_transaction_id := ['t', 'x'],
          payment_date := some 5,
          payment_message := ['o', 'k'] } : Order).payment_message
        = approvedPayment.message.getD [] :=
  process_payment_error_frame verifiedOrder
    { verifiedOrder with
      payment_transaction_id := ['t', 'x'],
      payment_date := some 5,
      payment_message := ['o', 'k'] }
    approvedPayment "Payment has already been verified for this order" rfl

/-- Defaulting the status leaves the value unchanged. -/
theorem check_or_create_status_value (o : Order) :
    (o.check_or_create_status).value = o.value := by
  unfold Order.check_or_create_status
  cases o.status <;> rfl

/-- Defaulting the status leaves the internal id unchanged. -/
theorem check_or_create_status_internal_id (o : Order) :
    (o.check_or_create_status).internal_id = o.internal_id := by
  unfold Order.check_or_create_status
  cases o.status <;> rfl

/-- Setting the display id leaves the value unchanged. -/
theorem set_display_id_value (o : Order) :
    (o.set_display_id).value = o.value := by
  unfold Order.set_display_id
  cases h : o.internal_id with
  | none => rfl
  | some n =>
      simp only [h]
      split <;> rfl

/-- Display id computed by `_set_display_id` for a truthy internal id. -/
theorem set_display_id_display {o : Order} {n : Nat} (hid : o.internal_id = some n)
    (hn : n ≠ 0) :
    (o.set_display_id).order_display_id = (zfill (Nat.toDigits 10 n) 3).take 3 := by
  unfold Order.set_display_id
  simp only [hid]
  rw [if_pos hn]

/-- Positivity of an explicitly supplied value is forced by
`_validate_business_rules` succeeding. -/
theorem validate_business_rules_value_positive {o : Order} {v : Money}
    (hv : o.value = some v) (h : o.validate_business_rules = Except.ok ()) :
    0 < v.amount := by
  unfold Order.validate_business_rules at h
  simp only [hv] at h
  split at h
  · cases h
  · split at h
    · cases h
    · split at h
      · cases h
      · split at h
        · cases h
        · next hc => exact lt_of_not_le hc

/-- Positivity of an explicitly supplied value is forced by the
skip-active variant succeeding as well. -/
theorem validate_skip_value_positive {o : Order} {v : Money}
    (hv : o.value = some v)
    (h : o.validate_business_rules_skip_active_check = Except.ok ()) :
    0 < v.amount := by
  unfold Order.validate_business_rules_skip_active_check at h
  simp only [hv] at h
  split at h
  · cases h
  · split at h
    · cases h
    · split at h
      · cases h
      · next hc => exact lt_of_not_le hc

/-- C6 (amended): an Order constructed with an explicitly supplied value
has a strictly positive value (a zero or negative supplied value is
rejected by validation, and `Money` forbids negatives anyway); the
invariant does not extend to the computed-value path, where an order
whose items all have zero price is accepted with value zero. -/
theorem order_explicit_value_positive (c : Nat) (items : List OrderItem)
    (v : Money) (st : Option OrderStatus) (iid : Option Nat) (skip : Bool)
    (o : Order) (h : Order.create c items (some v) st iid skip = Except.ok o) :
    0 < v.amount ∧ o.value = some v := by
  unfold Order.create at h
  cases hval : (if skip = true then
      (Order.initOrder c items (some v) st iid skip).validate_business_rules_skip_active_check
    else
      (Order.initOrder c items (some v) st iid skip).validate_business_rules) with
  | error e =>
      rw [hval] at h
      cases h
  | ok u =>
      rw [hval] at h
      injection h with h
      have hv0 : (Order.initOrder c items (some v) st iid skip).value = some v := rfl
      constructor
      · cases u
        cases hb : skip with
        | false =>
            rw [hb] at hval
            rw [if_neg (by simp)] at hval
            exact validate_business_rules_value_positive hv0 hval
        | true =>
            rw [hb] at hval
            rw [if_pos rfl] at hval
            exact validate_skip_value_positive hv0 hval
      · rw [← h, set_display_id_value]
        have h1 : ((Order.initOrder c items (some v) st iid
            skip).check_or_create_status).value = some v := by
          rw [check_or_create_status_value]
          rfl
        simp [Order.post_init_value, h1]

/-- Sample concrete order as `Order.__post_init__` leaves it for an
explicit value of 10 and no internal id. -/
def explicitValueOrder : Order :=
  ⟨1, [sampleItem], some ⟨10⟩, some ⟨OrderStatusType.RECEBIDO⟩, none, none,
   false, none, [], [], none, [], false⟩

/-- C6 witness: constructing with the explicit value 10 succeeds and the
value is kept, positive. -/
theorem order_explicit_value_positive_witness :
    0 < (⟨10⟩ : Money).amount ∧ explicitValueOrder.value = some ⟨10⟩ :=
  order_explicit_value_positive 1 [sampleItem] ⟨10⟩ none none false
    explicitValueOrder rfl

/-- Sample product that is fully valid but free of charge. -/
def freeProduct : Product :=
  ⟨['f'], ⟨0⟩, ProductCategory.BURGER,
   ['F', 'R', 'E', '-', '0', '0', '0', '3', '-', 'A', 'B', 'C'],
   [⟨ingredientA, 1⟩], true, some 3⟩

/-- Sample order item with price zero (zero-priced product, no
additional ingredients). -/
def freeItem : OrderItem :=
  OrderItem.create 0 freeProduct [] [] [] ⟨0⟩ none

/-- C6 counterexample: validation runs before `calculate_value`, so an
order over a single zero-priced item, with no explicit value, is
accepted and ends up with aggregate value 0 — not strictly positive. -/
theorem order_zero_computed_value_accepted :
    Order.create 1 [freeItem] none none none false = Except.ok
      ⟨1, [freeItem], some ⟨0⟩, some ⟨OrderStatusType.RECEBIDO⟩, none, none,
       false, none, [], [], none, [], false⟩ ∧
      Product.validate_business_rules freeProduct = true ∧
      freeItem.price = ⟨0⟩ := by
  refine ⟨?_, by decide, by decide⟩
  have hv : (Order.initOrder 1 [freeItem] none none none
      false).check_or_create_status.calculate_value = (⟨0⟩ : Money) := by
    show (⟨(0 : Rat) + freeItem.price.amount⟩ : Money) = (⟨0⟩ : Money)
    have h0 : freeItem.price.amount = 0 := rfl
    rw [h0]
    exact congrArg Money.mk (by norm_num)
  show Except.ok
      { (Order.initOrder 1 [freeItem] none none none false).check_or_create_status with
        value := some (Order.initOrder 1 [freeItem] none none none
          false).check_or_create_status.calculate_value }
    = Except.ok
      (⟨1, [freeItem], some ⟨0⟩, some ⟨OrderStatusType.RECEBIDO⟩, none, none,
        false, none, [], [], none, [], false⟩ : Order)
  rw [hv]
  rfl

/-- Computing a missing value leaves the internal id unchanged. -/
theorem post_init_value_internal_id (o : Order) :
    (o.post_init_value).internal_id = o.internal_id := by
  unfold Order.post_init_value
  split <;> rfl

/-- A list of at most the target width is not cut by the `[:3]` slice
after zero-filling to that width. -/
theorem zfill_take_of_short {s : List Char} (h : s.length ≤ 3) :
    (zfill s 3).take 3 = zfill s 3 := by
  apply List.take_of_length_le
  unfold zfill
  rw [List.length_append, List.length_replicate]
  omega

/-- Decimal representations of numbers below 1000 have at most three
digits. -/
theorem toDigits_length_le_three {n : Nat} (h : n < 1000) :
    (Nat.toDigits 10 n).length ≤ 3 := by
  have h3 : n < 10 ^ 3 := by norm_num at *; exact h
  have := Nat.toDigitsCore_length 10 (by norm_num) (n + 1) n 3 h3 (by norm_num)
  simpa [Nat.toDigits] using this

/-- C9 (amended): the display id of an Order constructed with a truthy
internal id `n` is the first three characters of `str(n).zfill(3)` —
equal to the zero-padded 3-digit decimal representation whenever
`n ≤ 999` (e.g. 7 yields "007"), but truncated to the first three
digits for larger ids. -/
theorem order_display_id_truncated_padded (c : Nat) (items : List OrderItem)
    (value : Option Money) (st : Option OrderStatus) (skip : Bool) (n : Nat)
    (o : Order) (hn : 0 < n)
    (h : Order.create c items value st (some n) skip = Except.ok o) :
    o.order_display_id = (zfill (Nat.toDigits 10 n) 3).take 3 ∧
      (n < 1000 → o.order_display_id = zfill (Nat.toDigits 10 n) 3) := by
  unfold Order.create at h
  cases hval : (if skip = true then
      (Order.initOrder c items value st (some n) skip).validate_business_rules_skip_active_check
    else
      (Order.initOrder c items value st (some n) skip).validate_business_rules) with
  | error e =>
      rw [hval] at h
      cases h
  | ok u =>
      rw [hval] at h
      injection h with h
      have hid : ((Order.initOrder c items value st (some n)
          skip).check_or_create_status.post_init_value).internal_id = some n := by
        rw [post_init_value_internal_id, check_or_create_status_internal_id]
        rfl
      have hdisp : o.order_display_id = (zfill (Nat.toDigits 10 n) 3).take 3 := by
        rw [← h]
        exact set_display_id_display hid (Nat.pos_iff_ne_zero.mp hn)
      refine ⟨hdisp, fun hlt => ?_⟩
      rw [hdisp]
      exact zfill_take_of_short (toDigits_length_le_three hlt)

/-- Sample order as `__post_init__` leaves it for internal id 7. -/
def sevenOrder : Order :=
  ⟨1, [sampleItem], some ⟨10⟩, some ⟨OrderStatusType.RECEBIDO⟩, none, none,
   false, none, [], [], some 7, ['0', '0', '7'], false⟩

/-- C9 witness: internal id 7 yields the display id "007". -/
theorem order_display_id_truncated_padded_witness :
    sevenOrder.order_display_id = (zfill (Nat.toDigits 10 7) 3).take 3 ∧
      (7 < 1000 → sevenOrder.order_display_id = zfill (Nat.toDigits 10 7) 3) :=
  order_display_id_truncated_padded 1 [sampleItem] (some ⟨10⟩) none false 7
    sevenOrder (by decide) (by rfl)

/-- C9 counterexample: for internal id 1234 the code stores "123" — the
first three characters of the padded representation — while the claimed
"decimal representation of n zero-padded to 3 digits" is "1234". -/
theorem display_id_truncation_counterexample :
    Order.create 1 [sampleItem] (some ⟨10⟩) none (some 1234) false = Except.ok
      ⟨1, [sampleItem], some ⟨10⟩, some ⟨OrderStatusType.RECEBIDO⟩, none, none,
       false, none, [], [], some 1234, ['1', '2', '3'], false⟩ ∧
      zfill (Nat.toDigits 10 1234) 3 = ['1', '2', '3', '4'] :=
  ⟨rfl, rfl⟩

end TcMicroService
